import Mathlib

/-!
# Verification of the QWERTY Command game server statistics engine

Shallow embedding of `src/server.py` (class `SQLiteBackend` and the
`/api/scores` POST handler of `GameServerHandler`).

Modelling conventions:
* SQLite REAL values are embedded as `ℚ`, INTEGER as `ℤ`.
* The three per-difficulty tables `stats_beginner` / `stats_normal` /
  `stats_expert` (columns `accuracy REAL NOT NULL, score, wave, created_at`)
  are embedded as lists of `Sample`, kept **newest-first**: inserting puts
  the new row at the head, which mirrors `ORDER BY created_at DESC` with
  strictly increasing `created_at` (ties broken by row id, the spec's
  "ties broken by insertion/row order").
* The `scores` table is a list of `ScoreRecord`, oldest-first, with
  `id` assigned as in AUTOINCREMENT (rows are never deleted).
* A missing JSON key is embedded as `none` in `PostBody`.
-/

/-- A row of one of the `stats_<difficulty>` tables: `accuracy REAL NOT NULL`,
`score INTEGER NOT NULL`, `wave INTEGER NOT NULL`. -/
structure Sample where
  accuracy : ℚ
  score : ℤ
  wave : ℤ
deriving DecidableEq, Repr

/-- A row as returned by `get_stats` and consumed by `compute_stats`:
the Python dict access `s['accuracy']` may in principle be `None`, and
`compute_stats` filters on `is not None`, so the accuracy field of the
row type is an `Option`. -/
structure StatRow where
  accuracy : Option ℚ
  score : ℤ
  wave : ℤ
deriving DecidableEq, Repr

/-- A row of the `scores` table. -/
structure ScoreRecord where
  id : ℕ
  player_name : String
  score : ℤ
  wave : ℤ
  accuracy : Option ℚ
  difficulty : Option String
deriving DecidableEq, Repr

/-- The persistent state of the `SQLiteBackend`: the `scores` table and the
three per-difficulty rolling-stats tables (each newest-first). -/
structure ServerState where
  scores : List ScoreRecord
  statsBeginner : List Sample
  statsNormal : List Sample
  statsExpert : List Sample
deriving DecidableEq, Repr

def emptyState : ServerState := ⟨[], [], [], []⟩

/-- The three recognized difficulties, as the Python list literal
`['beginner', 'normal', 'expert']` used in `save_stats` and `get_stats`. -/
def recognizedDifficulties : List String := ["beginner", "normal", "expert"]

/-- The stats bucket for a difficulty (newest-first). Unrecognized
difficulties have no table; reading them yields `[]`. -/
def bucketOf (st : ServerState) (d : String) : List Sample :=
  if d = "beginner" then st.statsBeginner
  else if d = "normal" then st.statsNormal
  else if d = "expert" then st.statsExpert
  else []

def setBucket (st : ServerState) (d : String) (l : List Sample) : ServerState :=
  if d = "beginner" then { st with statsBeginner := l }
  else if d = "normal" then { st with statsNormal := l }
  else if d = "expert" then { st with statsExpert := l }
  else st

/-- The pruning step of `save_stats`: `DELETE FROM <table> WHERE id NOT IN
(SELECT id FROM <table> ORDER BY created_at DESC LIMIT 200)` — keep only the
200 newest rows. On a newest-first list this is `take 200`. -/
def prune (l : List Sample) : List Sample := l.take 200

/-- Embeds `SQLiteBackend.save_stats(accuracy, score, wave, difficulty)`:
no-op unless `difficulty` is recognized; otherwise insert the new row and
prune the bucket to the 200 most recent rows. -/
def save_stats (st : ServerState) (accuracy : ℚ) (score wave : ℤ)
    (difficulty : String) : ServerState :=
  if difficulty ∈ recognizedDifficulties then
    setBucket st difficulty (prune (⟨accuracy, score, wave⟩ :: bucketOf st difficulty))
  else st

/-- How a stats-table row is handed to `compute_stats`: the `accuracy`
column is NOT NULL, so the dict value is always non-`None`. -/
def toRow (s : Sample) : StatRow := ⟨some s.accuracy, s.score, s.wave⟩

/-- Embeds `SQLiteBackend.get_stats(difficulty)`: `[]` for unrecognized difficulty,
otherwise all rows of the bucket ordered newest-first (`ORDER BY created_at
DESC`). -/
def get_stats (st : ServerState) (d : String) : List StatRow :=
  if d ∈ recognizedDifficulties then (bucketOf st d).map toRow
  else []

/-- Embeds `SQLiteBackend.save_score`: append a row to `scores` with the next
AUTOINCREMENT id; `player_name or 'Anonymous'` treats both a missing name and
the empty string as falsy. Returns the new state and the new row id. -/
def save_score (st : ServerState) (score wave : ℤ) (accuracy : Option ℚ)
    (difficulty : Option String) (player_name : Option String) :
    ServerState × ℕ :=
  let nm := match player_name with
    | some s => if s = "" then "Anonymous" else s
    | none => "Anonymous"
  let id := st.scores.length + 1
  ({ st with scores := st.scores ++ [⟨id, nm, score, wave, accuracy, difficulty⟩] }, id)

/-! ## The statistics aggregator (`compute_stats`) -/

/-- Embeds `statistics.mean` over rationals: sum divided by length (`0` on `[]` by
the `ℚ` convention `x / 0 = 0`; the source only applies it to non-empty
lists). -/
def mean (xs : List ℚ) : ℚ := xs.sum / (xs.length : ℚ)

/-- Embeds `statistics.mean` of a list of integers, as an exact rational. -/
def meanZ (xs : List ℤ) : ℚ := ((xs.sum : ℤ) : ℚ) / (xs.length : ℚ)

/-- Python `min(list)` (source applies it to non-empty lists only). -/
def listMinQ : List ℚ → ℚ
  | [] => 0
  | x :: t => t.foldl min x

/-- Python `max(list)` (source applies it to non-empty lists only). -/
def listMaxQ : List ℚ → ℚ
  | [] => 0
  | x :: t => t.foldl max x

/-- Python `max(list)` over integers. -/
def listMaxZ : List ℤ → ℤ
  | [] => 0
  | x :: t => t.foldl max x

/-- Python `round(x)`: round half to even (banker's rounding) to an
integer. -/
def roundHalfEven (q : ℚ) : ℤ :=
  let f := ⌊q⌋
  if q - f < 1/2 then f
  else if 1/2 < q - f then f + 1
  else if f % 2 = 0 then f else f + 1

/-- Python `round(x, 1)`: round half to even at one decimal place. -/
def round1 (q : ℚ) : ℚ := ((roundHalfEven (q * 10) : ℤ) : ℚ) / 10

/-- The inner function `percentile(data, p)` of `compute_stats`:
`k = (len(data) - 1) * (p / 100)`, `f = int(k)` (truncation, which is the
floor for the non-negative `k` arising from `p ≥ 0` and non-empty data),
`c = f + 1 if f + 1 < len(data) else f`, linear interpolation between
`data[f]` and `data[c]`. Out-of-range indexing is totalized with default
`0`; in all uses the indices are in range. -/
def percentile (data : List ℚ) (p : ℚ) : ℚ :=
  let k : ℚ := ((data.length : ℚ) - 1) * (p / 100)
  let f : ℕ := (⌊k⌋).toNat
  let c : ℕ := if f + 1 < data.length then f + 1 else f
  data.getD f 0 + (data.getD c 0 - data.getD f 0) * (k - (f : ℚ))

/-- The median of an already-sorted list, as `statistics.median` computes it
after sorting: middle element for odd length, average of the two middle
elements for even length. -/
def medianOfSorted (s : List ℚ) : ℚ :=
  if s.length % 2 = 1 then s.getD (s.length / 2) 0
  else (s.getD (s.length / 2 - 1) 0 + s.getD (s.length / 2) 0) / 2

/-- Embeds `statistics.median(xs)`: sorts its input, then takes the middle. -/
def medianPy (xs : List ℚ) : ℚ := medianOfSorted (xs.insertionSort (· ≤ ·))

/-- The five distribution buckets of `compute_stats`, by their Python list
comprehension conditions. -/
structure Distribution where
  d97_100 : ℕ
  d95_97 : ℕ
  d90_95 : ℕ
  d80_90 : ℕ
  below_80 : ℕ
deriving DecidableEq, Repr

/-- Embeds the `'distribution'` entry of `compute_stats`: `len([a for a in accuracies if C])`
for the five conditions `a >= 97`, `95 <= a < 97`, `90 <= a < 95`,
`80 <= a < 90`, `a < 80`. -/
def distributionOf (accuracies : List ℚ) : Distribution where
  d97_100 := accuracies.countP (fun a => decide (97 ≤ a))
  d95_97 := accuracies.countP (fun a => decide (95 ≤ a ∧ a < 97))
  d90_95 := accuracies.countP (fun a => decide (90 ≤ a ∧ a < 95))
  d80_90 := accuracies.countP (fun a => decide (80 ≤ a ∧ a < 90))
  below_80 := accuracies.countP (fun a => decide (a < 80))

structure AccuracyStats where
  avg : ℚ
  median : ℚ
  /-- The square of the value the source computes as
  `statistics.stdev(accuracies) if n > 1 else 0`. The source rounds the
  square root to one decimal for the JSON report; the square root of a
  rational is irrational in general, so the embedding carries the exact
  square (`stdevSq = stdev ^ 2`, and `stdevSq = 0` iff `stdev = 0`). -/
  stdevSq : ℚ
  min : ℚ
  max : ℚ
deriving DecidableEq, Repr

structure Percentiles where
  p10 : ℚ
  p25 : ℚ
  p75 : ℚ
  p90 : ℚ
  p95 : ℚ
deriving DecidableEq, Repr

/-- Embeds `'score': {'avg': round(statistics.mean(scores)), 'max': max(scores)}`. -/
structure ScoreSummary where
  avg : ℤ
  max : ℤ
deriving DecidableEq, Repr

def scoreSummaryOf (scores : List ℤ) : ScoreSummary where
  avg := roundHalfEven (meanZ scores)
  max := listMaxZ scores

/-- Embeds `'wave': {'avg': round(statistics.mean(waves), 1), 'max': max(waves)}`. -/
structure WaveSummary where
  avg : ℚ
  max : ℤ
deriving DecidableEq, Repr

def waveSummaryOf (waves : List ℤ) : WaveSummary where
  avg := round1 (meanZ waves)
  max := listMaxZ waves

/-- The result dict of `compute_stats`. The optional `'trend'` key is an
`Option`. -/
structure StatsReport where
  difficulty : String
  games : ℕ
  accuracy : AccuracyStats
  percentiles : Percentiles
  distribution : Distribution
  score : ScoreSummary
  wave : WaveSummary
  trend : Option ℚ
deriving DecidableEq, Repr

/-- The construction of the result dict in `compute_stats`, after both
emptiness guards have passed. `statistics.stdev` computes the square root of
the sum of squared deviations from the mean divided by `n - 1`; see
`AccuracyStats.stdevSq`. -/
def buildReport (difficulty : String) (stats : List StatRow) : StatsReport :=
  let accuracies := stats.filterMap (fun s => s.accuracy)
  let scores := stats.map (fun s => s.score)
  let waves := stats.map (fun s => s.wave)
  let n := accuracies.length
  let sorted_acc := accuracies.insertionSort (· ≤ ·)
  { difficulty := difficulty
    games := n
    accuracy :=
      { avg := round1 (mean accuracies)
        median := round1 (medianPy accuracies)
        stdevSq :=
          if 1 < n then
            ((accuracies.map (fun x => (x - mean accuracies) ^ 2)).sum) / ((n : ℚ) - 1)
          else 0
        min := round1 (listMinQ accuracies)
        max := round1 (listMaxQ accuracies) }
    percentiles :=
      { p10 := round1 (percentile sorted_acc 10)
        p25 := round1 (percentile sorted_acc 25)
        p75 := round1 (percentile sorted_acc 75)
        p90 := round1 (percentile sorted_acc 90)
        p95 := round1 (percentile sorted_acc 95) }
    distribution := distributionOf accuracies
    score := scoreSummaryOf scores
    wave := waveSummaryOf waves
    trend :=
      if 20 ≤ n then
        some (round1 (mean (accuracies.take 10) - mean ((accuracies.drop 10).take 10)))
      else none }

/-- The pure core of `SQLiteBackend.compute_stats` applied to the rows
`get_stats` returned: `None` when there are no rows or no row has a
non-null accuracy, otherwise the report dict. -/
def computeStatsRows (difficulty : String) (stats : List StatRow) :
    Option StatsReport :=
  if stats.isEmpty then none
  else if (stats.filterMap (fun s => s.accuracy)).isEmpty then none
  else some (buildReport difficulty stats)

/-- Embeds `SQLiteBackend.compute_stats(difficulty)`. -/
def compute_stats (st : ServerState) (difficulty : String) : Option StatsReport :=
  computeStatsRows difficulty (get_stats st difficulty)

/-! ## The POST `/api/scores` handler -/

/-- The parsed JSON body of a POST `/api/scores` request; `none` embeds a
missing key. -/
structure PostBody where
  score : Option ℤ
  wave : Option ℤ
  accuracy : Option ℚ
  difficulty : Option String
  player_name : Option String
deriving DecidableEq, Repr

/-- Embeds `GameServerHandler.handle_api_post` on path `/api/scores`: `400` and no
state change when `score` or `wave` is missing; otherwise `save_score`,
then `save_stats` when `difficulty` is truthy (non-null, non-empty) and
`accuracy` is non-null, and a `200` response carrying the new id. -/
def handle_api_post (st : ServerState) (body : PostBody) :
    ServerState × ℕ × Option ℕ :=
  match body.score, body.wave with
  | some sc, some w =>
    let r := save_score st sc w body.accuracy body.difficulty body.player_name
    let st2 :=
      match body.difficulty, body.accuracy with
      | some d, some a => if d ≠ "" then save_stats r.1 a sc w d else r.1
      | _, _ => r.1
    (st2, 200, some r.2)
  | _, _ => (st, 400, none)

/-! ## Derived definitions used by the verification -/

/-- A sequence of `save_stats` calls (one per sample, in order) against a
fresh database, all for the same difficulty. -/
def applyInserts (d : String) (xs : List Sample) : ServerState :=
  xs.foldl (fun st x => save_stats st x.accuracy x.score x.wave d) emptyState

/-- Modelled from the spec: the sample variance with denominator `n - 1`
("sample standard deviation (denominator n-1)"), written in the equivalent
computational form `(Σ x² - n·mean²) / (n - 1)` so that comparing it with
the source's sum of squared deviations is a genuine identity. -/
def specSampleVariance (xs : List ℚ) : ℚ :=
  ((xs.map (fun x => x ^ 2)).sum - (xs.length : ℚ) * (mean xs) ^ 2) /
    ((xs.length : ℚ) - 1)

/-- Concrete input: 250 distinct samples, used to instantiate the rolling
window theorem at the spec's 250-insert scenario. -/
def samples250 : List Sample :=
  (List.range 250).map (fun (i : ℕ) => { accuracy := (i : ℚ), score := (i : ℤ), wave := (i : ℤ) })

/-- Concrete input: a 20-row snapshot (all accuracies 90), enough rows for
the trend to be present. -/
def rows20 : List StatRow :=
  [⟨some 90, 0, 0⟩, ⟨some 90, 0, 0⟩, ⟨some 90, 0, 0⟩, ⟨some 90, 0, 0⟩,
   ⟨some 90, 0, 0⟩, ⟨some 90, 0, 0⟩, ⟨some 90, 0, 0⟩, ⟨some 90, 0, 0⟩,
   ⟨some 90, 0, 0⟩, ⟨some 90, 0, 0⟩, ⟨some 90, 0, 0⟩, ⟨some 90, 0, 0⟩,
   ⟨some 90, 0, 0⟩, ⟨some 90, 0, 0⟩, ⟨some 90, 0, 0⟩, ⟨some 90, 0, 0⟩,
   ⟨some 90, 0, 0⟩, ⟨some 90, 0, 0⟩, ⟨some 90, 0, 0⟩, ⟨some 90, 0, 0⟩]

/-- Concrete input: a state whose `normal` window holds one sample. -/
def oneSampleState : ServerState := ⟨[], [], [⟨90, 5, 3⟩], []⟩

/-! ## Helper lemmas about the rolling window -/

theorem bucketOf_emptyState (d : String) : bucketOf emptyState d = [] := by
  unfold bucketOf emptyState
  split_ifs <;> rfl

theorem bucketOf_setBucket (st : ServerState) (l : List Sample) {d : String}
    (hd : d ∈ recognizedDifficulties) : bucketOf (setBucket st d l) d = l := by
  simp only [recognizedDifficulties, List.mem_cons, List.not_mem_nil, or_false] at hd
  rcases hd with rfl | rfl | rfl <;> simp [bucketOf, setBucket]

theorem bucketOf_save_stats (st : ServerState) (a : ℚ) (s w : ℤ) {d : String}
    (hd : d ∈ recognizedDifficulties) :
    bucketOf (save_stats st a s w d) d = prune (⟨a, s, w⟩ :: bucketOf st d) := by
  unfold save_stats
  rw [if_pos hd]
  exact bucketOf_setBucket _ _ hd

theorem take200_append {α : Type*} (a b : List α) :
    (a ++ b.take 200).take 200 = (a ++ b).take 200 := by
  rw [List.take_append_eq_append_take, List.take_append_eq_append_take, List.take_take]
  congr 2
  omega

theorem foldl_prune (xs : List Sample) : ∀ l0 : List Sample, l0.length ≤ 200 →
    xs.foldl (fun l x => prune (x :: l)) l0 = (xs.reverse ++ l0).take 200 := by
  induction xs with
  | nil =>
    intro l0 h
    simp [List.take_of_length_le h]
  | cons x t ih =>
    intro l0 h
    have h2 : (prune (x :: l0)).length ≤ 200 := by
      simp [prune, List.length_take]
    rw [List.foldl_cons, ih (prune (x :: l0)) h2]
    show (t.reverse ++ (x :: l0).take 200).take 200 = ((x :: t).reverse ++ l0).take 200
    rw [take200_append]
    simp

theorem bucket_applyInserts {d : String} (hd : d ∈ recognizedDifficulties)
    (xs : List Sample) :
    bucketOf (applyInserts d xs) d = xs.reverse.take 200 := by
  unfold applyInserts
  have key : ∀ st0 : ServerState,
      bucketOf (xs.foldl (fun st x => save_stats st x.accuracy x.score x.wave d) st0) d
        = xs.foldl (fun l x => prune (x :: l)) (bucketOf st0 d) := by
    induction xs with
    | nil => intro st0; rfl
    | cons x t ih =>
      intro st0
      rw [List.foldl_cons, List.foldl_cons, ih, bucketOf_save_stats _ _ _ _ hd]
  rw [key emptyState, bucketOf_emptyState, foldl_prune xs [] (by simp), List.append_nil]

/-- C1: for every recognized difficulty and every sequence of `save_stats`
appends, the bucket holds the 200 most recently inserted samples and no
more (`take 200` of the newest-first insertion history), its size is at
most 200, and `get_stats` returns exactly those samples newest-first. -/
theorem rolling_window_cap {d : String} (hd : d ∈ recognizedDifficulties)
    (xs : List Sample) :
    bucketOf (applyInserts d xs) d = xs.reverse.take 200 ∧
    (bucketOf (applyInserts d xs) d).length ≤ 200 ∧
    get_stats (applyInserts d xs) d = (xs.reverse.take 200).map toRow := by
  have h1 := bucket_applyInserts hd xs
  refine ⟨h1, ?_, ?_⟩
  · rw [h1]
    simp [List.length_take]
  · unfold get_stats
    rw [if_pos hd, h1]

/-- Witness for C1: the spec's 250-insert scenario on difficulty `normal`;
after the 250 sequential inserts the bucket is exactly the 200 most recent
inserts. -/
theorem rolling_window_cap_witness :
    ("normal" ∈ recognizedDifficulties) ∧
    (bucketOf (applyInserts "normal" samples250) "normal" = samples250.reverse.take 200 ∧
     (bucketOf (applyInserts "normal" samples250) "normal").length ≤ 200 ∧
     get_stats (applyInserts "normal" samples250) "normal" =
       (samples250.reverse.take 200).map toRow) :=
  ⟨by decide, rolling_window_cap (by decide) samples250⟩

/-- C9: `save_stats` with a difficulty outside
`{beginner, normal, expert}` is a total no-op: it returns normally and the
state — all three stats windows included — is unchanged. -/
theorem save_stats_unrecognized_noop (st : ServerState) (a : ℚ) (s w : ℤ)
    {d : String} (hd : d ∉ recognizedDifficulties) :
    save_stats st a s w d = st := by
  unfold save_stats
  rw [if_neg hd]

/-- Witness for C9 at the concrete unrecognized difficulty `hard`. -/
theorem save_stats_unrecognized_noop_witness :
    ("hard" ∉ recognizedDifficulties) ∧
    save_stats emptyState 50 1 2 "hard" = emptyState :=
  ⟨by decide, save_stats_unrecognized_noop emptyState 50 1 2 (by decide)⟩

/-- C8: a POST `/api/scores` whose body lacks the `score` key or the `wave`
key is answered with `400` and the state — score store and all stats
windows — is unchanged, and no score id is produced. -/
theorem post_missing_required_field (st : ServerState) (body : PostBody)
    (h : body.score = none ∨ body.wave = none) :
    handle_api_post st body = (st, 400, none) := by
  obtain ⟨bs, bw, ba, bd, bp⟩ := body
  simp only at h
  rcases h with h | h
  · subst h
    rfl
  · subst h
    cases bs <;> rfl

/-- Witness for C8: a body with `wave` but no `score`. -/
theorem post_missing_required_field_witness :
    ((⟨none, some 3, none, none, none⟩ : PostBody).score = none ∨
      (⟨none, some 3, none, none, none⟩ : PostBody).wave = none) ∧
    handle_api_post emptyState ⟨none, some 3, none, none, none⟩ =
      (emptyState, 400, none) :=
  ⟨Or.inl rfl, post_missing_required_field emptyState _ (Or.inl rfl)⟩

/-! ## Helper lemmas about the distribution buckets -/

theorem distribution_sum_aux (accs : List ℚ) :
    (distributionOf accs).d97_100 + (distributionOf accs).d95_97 +
      (distributionOf accs).d90_95 + (distributionOf accs).d80_90 +
      (distributionOf accs).below_80 = accs.length := by
  induction accs with
  | nil => rfl
  | cons a t ih =>
    simp only [distributionOf, List.countP_cons, List.length_cons,
      decide_eq_true_eq] at *
    rcases lt_or_le a 80 with h80 | h80
    · have e1 : ¬(97 ≤ a) := by linarith
      have e2 : ¬(95 ≤ a ∧ a < 97) := fun hc => by linarith [hc.1]
      have e3 : ¬(90 ≤ a ∧ a < 95) := fun hc => by linarith [hc.1]
      have e4 : ¬(80 ≤ a ∧ a < 90) := fun hc => by linarith [hc.1]
      simp only [if_neg e1, if_neg e2, if_neg e3, if_neg e4, if_pos h80]
      omega
    · rcases lt_or_le a 90 with h90 | h90
      · have e1 : ¬(97 ≤ a) := by linarith
        have e2 : ¬(95 ≤ a ∧ a < 97) := fun hc => by linarith [hc.1]
        have e3 : ¬(90 ≤ a ∧ a < 95) := fun hc => by linarith [hc.1]
        have e4 : 80 ≤ a ∧ a < 90 := ⟨h80, h90⟩
        have e5 : ¬(a < 80) := by linarith
        simp only [if_neg e1, if_neg e2, if_neg e3, if_pos e4, if_neg e5]
        omega
      · rcases lt_or_le a 95 with h95 | h95
        · have e1 : ¬(97 ≤ a) := by linarith
          have e2 : ¬(95 ≤ a ∧ a < 97) := fun hc => by linarith [hc.1]
          have e3 : 90 ≤ a ∧ a < 95 := ⟨h90, h95⟩
          have e4 : ¬(80 ≤ a ∧ a < 90) := fun hc => by linarith [hc.2]
          have e5 : ¬(a < 80) := by linarith
          simp only [if_neg e1, if_neg e2, if_pos e3, if_neg e4, if_neg e5]
          omega
        · rcases lt_or_le a 97 with h97 | h97
          · have e1 : ¬(97 ≤ a) := by linarith
            have e2 : 95 ≤ a ∧ a < 97 := ⟨h95, h97⟩
            have e3 : ¬(90 ≤ a ∧ a < 95) := fun hc => by linarith [hc.2]
            have e4 : ¬(80 ≤ a ∧ a < 90) := fun hc => by linarith [hc.2]
            have e5 : ¬(a < 80) := by linarith
            simp only [if_neg e1, if_pos e2, if_neg e3, if_neg e4, if_neg e5]
            omega
          · have e2 : ¬(95 ≤ a ∧ a < 97) := fun hc => by linarith [hc.2]
            have e3 : ¬(90 ≤ a ∧ a < 95) := fun hc => by linarith [hc.2]
            have e4 : ¬(80 ≤ a ∧ a < 90) := fun hc => by linarith [hc.2]
            have e5 : ¬(a < 80) := by linarith
            simp only [if_pos h97, if_neg e2, if_neg e3, if_neg e4, if_neg e5]
            omega

/-- C5: for every list of accuracy values the five distribution bucket
counts (`a ≥ 97`, `95 ≤ a < 97`, `90 ≤ a < 95`, `80 ≤ a < 90`, `a < 80`)
sum to exactly the number of values. -/
theorem distribution_buckets_sum (accs : List ℚ) :
    (distributionOf accs).d97_100 + (distributionOf accs).d95_97 +
      (distributionOf accs).d90_95 + (distributionOf accs).d80_90 +
      (distributionOf accs).below_80 = accs.length :=
  distribution_sum_aux accs

/-- C6: when no row of the snapshot carries a non-null accuracy (in
particular for the empty snapshot), `compute_stats` returns `None`
("unavailable") — the aggregation is total and raises no error. -/
theorem compute_stats_unavailable (d : String) (rows : List StatRow)
    (h : rows.filterMap (fun s => s.accuracy) = []) :
    computeStatsRows d rows = none := by
  unfold computeStatsRows
  rcases rows with _ | ⟨r, t⟩
  · rfl
  · rw [if_neg (by simp), if_pos (by simp [h])]

/-- Witness for C6: a one-row snapshot whose accuracy is null. -/
theorem compute_stats_unavailable_witness :
    ([(⟨none, 5, 3⟩ : StatRow)].filterMap (fun s => s.accuracy) = []) ∧
    computeStatsRows "normal" [⟨none, 5, 3⟩] = none :=
  ⟨rfl, compute_stats_unavailable "normal" _ rfl⟩

/-! ## Helper lemmas about the aggregator -/

theorem computeStatsRows_some {d : String} {rows : List StatRow} {rep : StatsReport}
    (h : computeStatsRows d rows = some rep) :
    rep = buildReport d rows ∧ rows ≠ [] ∧
      rows.filterMap (fun s => s.accuracy) ≠ [] := by
  unfold computeStatsRows at h
  split_ifs at h with h1 h2
  exact ⟨(Option.some.inj h).symm, by simpa using h1, by simpa using h2⟩

theorem sum_map_sub_sq (xs : List ℚ) (c : ℚ) :
    (xs.map (fun x => (x - c) ^ 2)).sum =
      (xs.map (fun x => x ^ 2)).sum - 2 * c * xs.sum + (xs.length : ℚ) * c ^ 2 := by
  induction xs with
  | nil => simp
  | cons a t ih =>
    simp only [List.map_cons, List.sum_cons, List.length_cons, ih]
    push_cast
    ring

theorem get_stats_all_some (st : ServerState) (d : String) :
    (get_stats st d).filter (fun r => r.accuracy.isSome) = get_stats st d := by
  unfold get_stats
  split_ifs
  · refine List.filter_eq_self.mpr fun r hr => ?_
    rcases List.mem_map.mp hr with ⟨s, -, rfl⟩
    rfl
  · rfl

/-- C3: the trend is present in the report iff the snapshot has at least 20
accuracy-bearing rows, and then it equals the mean of the accuracies at
indices `[0,10)` of the newest-first ordering minus the mean of those at
`[10,20)`, rounded to one decimal. -/
theorem trend_presence (d : String) (rows : List StatRow) (rep : StatsReport)
    (h : computeStatsRows d rows = some rep) :
    (rep.trend ≠ none ↔ 20 ≤ (rows.filterMap (fun s => s.accuracy)).length) ∧
    (20 ≤ (rows.filterMap (fun s => s.accuracy)).length →
      rep.trend = some (round1 (mean ((rows.filterMap (fun s => s.accuracy)).take 10) -
        mean (((rows.filterMap (fun s => s.accuracy)).drop 10).take 10)))) := by
  obtain ⟨hrep, -, -⟩ := computeStatsRows_some h
  subst hrep
  constructor
  · simp only [buildReport]
    split_ifs with h20
    · simpa using h20
    · simpa using h20
  · intro h20
    simp only [buildReport]
    rw [if_pos h20]

/-- Witness for C3: a 20-row snapshot; the report exists and its trend obeys
the characterization. -/
theorem trend_presence_witness :
    computeStatsRows "normal" rows20 = some (buildReport "normal" rows20) ∧
    ((buildReport "normal" rows20).trend ≠ none ↔
      20 ≤ (rows20.filterMap (fun s => s.accuracy)).length) ∧
    (20 ≤ (rows20.filterMap (fun s => s.accuracy)).length →
      (buildReport "normal" rows20).trend =
        some (round1 (mean ((rows20.filterMap (fun s => s.accuracy)).take 10) -
          mean (((rows20.filterMap (fun s => s.accuracy)).drop 10).take 10)))) := by
  have h : computeStatsRows "normal" rows20 = some (buildReport "normal" rows20) := by
    unfold computeStatsRows
    rw [if_neg (by simp [rows20]), if_neg (by simp [rows20])]
  exact ⟨h, trend_presence "normal" rows20 _ h⟩

/-- C7: when the report exists, the value the source computes as
`statistics.stdev` (carried here as its square, `stdevSq`) is the sample
variance with denominator `n - 1` for `n > 1`, and `0` for `n = 1`. -/
theorem stdev_is_sample_variance (d : String) (rows : List StatRow)
    (rep : StatsReport) (h : computeStatsRows d rows = some rep) :
    ((rows.filterMap (fun s => s.accuracy)).length = 1 →
      rep.accuracy.stdevSq = 0) ∧
    (1 < (rows.filterMap (fun s => s.accuracy)).length →
      rep.accuracy.stdevSq =
        specSampleVariance (rows.filterMap (fun s => s.accuracy))) := by
  obtain ⟨hrep, -, -⟩ := computeStatsRows_some h
  subst hrep
  constructor
  · intro h1
    simp only [buildReport]
    rw [if_neg (by omega)]
  · intro h1
    simp only [buildReport, specSampleVariance]
    rw [if_pos h1, sum_map_sub_sq]
    congr 1
    have hn : ((rows.filterMap (fun s => s.accuracy)).length : ℚ) ≠ 0 := by
      have : 0 < (rows.filterMap (fun s => s.accuracy)).length := by omega
      exact_mod_cast this.ne'
    have hsum : (rows.filterMap (fun s => s.accuracy)).sum =
        ((rows.filterMap (fun s => s.accuracy)).length : ℚ) *
          mean (rows.filterMap (fun s => s.accuracy)) := by
      unfold mean
      field_simp
    rw [hsum]
    ring

/-- Witness for C7: a two-row snapshot with accuracies 90 and 100. -/
theorem stdev_is_sample_variance_witness :
    computeStatsRows "normal" [⟨some 90, 0, 0⟩, ⟨some 100, 0, 0⟩] =
      some (buildReport "normal" [⟨some 90, 0, 0⟩, ⟨some 100, 0, 0⟩]) ∧
    1 < ([(⟨some 90, 0, 0⟩ : StatRow), ⟨some 100, 0, 0⟩].filterMap
      (fun s => s.accuracy)).length ∧
    (buildReport "normal" [⟨some 90, 0, 0⟩, ⟨some 100, 0, 0⟩]).accuracy.stdevSq =
      specSampleVariance ([(⟨some 90, 0, 0⟩ : StatRow), ⟨some 100, 0, 0⟩].filterMap
        (fun s => s.accuracy)) := by
  have h : computeStatsRows "normal" [⟨some 90, 0, 0⟩, ⟨some 100, 0, 0⟩] =
      some (buildReport "normal" [⟨some 90, 0, 0⟩, ⟨some 100, 0, 0⟩]) := by
    unfold computeStatsRows
    rw [if_neg (by simp), if_neg (by simp)]
  exact ⟨h, by simp,
    (stdev_is_sample_variance "normal" _ _ h).2 (by simp)⟩

/-- C2: in every report computed from a snapshot, the score and wave
summaries are computed over the same sample set as the accuracy statistics
— the rows with a non-null accuracy; every snapshot row has a non-null
accuracy, so this coincides with the full unfiltered row list. -/
theorem score_wave_over_filtered (st : ServerState) (d : String)
    (rep : StatsReport) (h : compute_stats st d = some rep) :
    rep.score = scoreSummaryOf (((get_stats st d).filter
      (fun r => r.accuracy.isSome)).map (fun r => r.score)) ∧
    rep.wave = waveSummaryOf (((get_stats st d).filter
      (fun r => r.accuracy.isSome)).map (fun r => r.wave)) := by
  unfold compute_stats at h
  obtain ⟨hrep, -, -⟩ := computeStatsRows_some h
  subst hrep
  rw [get_stats_all_some]
  exact ⟨rfl, rfl⟩

/-- Witness for C2 on a one-sample `normal` window. -/
theorem score_wave_over_filtered_witness :
    compute_stats oneSampleState "normal" =
      some (buildReport "normal" (get_stats oneSampleState "normal")) ∧
    (buildReport "normal" (get_stats oneSampleState "normal")).score =
      scoreSummaryOf (((get_stats oneSampleState "normal").filter
        (fun r => r.accuracy.isSome)).map (fun r => r.score)) ∧
    (buildReport "normal" (get_stats oneSampleState "normal")).wave =
      waveSummaryOf (((get_stats oneSampleState "normal").filter
        (fun r => r.accuracy.isSome)).map (fun r => r.wave)) := by
  have h : compute_stats oneSampleState "normal" =
      some (buildReport "normal" (get_stats oneSampleState "normal")) := by
    unfold compute_stats computeStatsRows
    rw [if_neg (by simp [get_stats, oneSampleState, bucketOf, recognizedDifficulties]),
      if_neg (by simp [get_stats, oneSampleState, bucketOf, recognizedDifficulties, toRow])]
  have h2 := score_wave_over_filtered oneSampleState "normal" _ h
  exact ⟨h, h2.1, h2.2⟩

/-- C4: on every non-empty ascending-sorted list, the interpolated
`percentile` at `p = 50` equals the standard median (`statistics.median`,
here `medianPy`), for even and odd lengths alike. -/
theorem percentile50_eq_median (xs : List ℚ) (hne : xs ≠ [])
    (hs : List.Sorted (· ≤ ·) xs) : percentile xs 50 = medianPy xs := by
  have hn1 : 1 ≤ xs.length := List.length_pos.mpr hne
  simp only [percentile, medianPy, medianOfSorted, List.Sorted.insertionSort_eq hs]
  rcases Nat.even_or_odd xs.length with he | ho
  · obtain ⟨m, hm⟩ := he
    have hm1 : 1 ≤ m := by omega
    have hk : ((xs.length : ℚ) - 1) * (50 / 100) = (m : ℚ) - 1/2 := by
      rw [hm]; push_cast; ring
    have hfl : ⌊((xs.length : ℚ) - 1) * (50 / 100)⌋ = (m : ℤ) - 1 := by
      rw [hk]
      refine Int.floor_eq_iff.mpr ⟨?_, ?_⟩ <;> push_cast <;> linarith
    have hfn : (⌊((xs.length : ℚ) - 1) * (50 / 100)⌋).toNat = m - 1 := by
      rw [hfl]; omega
    rw [hfn]
    have hc : m - 1 + 1 < xs.length := by omega
    rw [if_pos hc]
    have hmod : ¬ (xs.length % 2 = 1) := by omega
    rw [if_neg hmod]
    have hd2 : xs.length / 2 = m := by omega
    rw [hd2]
    have hcast : ((m - 1 : ℕ) : ℚ) = (m : ℚ) - 1 := by
      push_cast [hm1]; ring
    have hm11 : m - 1 + 1 = m := by omega
    rw [hm11, hk, hcast]
    ring
  · obtain ⟨m, hm⟩ := ho
    have hk : ((xs.length : ℚ) - 1) * (50 / 100) = (m : ℚ) := by
      rw [hm]; push_cast; ring
    have hfl : ⌊((xs.length : ℚ) - 1) * (50 / 100)⌋ = (m : ℤ) := by
      rw [hk, Int.floor_natCast]
    have hfn : (⌊((xs.length : ℚ) - 1) * (50 / 100)⌋).toNat = m := by
      rw [hfl]; omega
    rw [hfn]
    have hmod : xs.length % 2 = 1 := by omega
    rw [if_pos hmod]
    have hd2 : xs.length / 2 = m := by omega
    rw [hd2, hk]
    ring

/-- Witness for C4 on the even-length sorted list `[1, 2, 3, 4]` (the value
on both sides is `5/2`). -/
theorem percentile50_eq_median_witness :
    (([1, 2, 3, 4] : List ℚ) ≠ [] ∧ List.Sorted (· ≤ ·) ([1, 2, 3, 4] : List ℚ)) ∧
    percentile [1, 2, 3, 4] 50 = medianPy [1, 2, 3, 4] ∧
    percentile [1, 2, 3, 4] 50 = 5/2 := by
  have hs : List.Sorted (· ≤ ·) ([1, 2, 3, 4] : List ℚ) := by
    simp [List.sorted_cons]
    norm_num
  refine ⟨⟨by simp, hs⟩, percentile50_eq_median [1, 2, 3, 4] (by simp) hs, ?_⟩
  norm_num [percentile, List.getD]

/-- C10: the POST handler performs no range validation on `accuracy`: with
`score` and `wave` present, any rational accuracy — above 100 or below 0
included — is accepted (status 200), stored as a permanent score record and
in the rolling window, and appears in the snapshot that feeds the
statistics; in the distribution, an accuracy `≥ 97` is counted in the
`97-100` bucket and an accuracy `< 80` in the `below_80` bucket, and the
five bucket counts of the enlarged accuracy list still sum to its size. -/
theorem accuracy_not_range_validated (st : ServerState) (q : ℚ) (sc w : ℤ) :
    (handle_api_post st ⟨some sc, some w, some q, some "normal", none⟩).2.1 = 200 ∧
    (handle_api_post st ⟨some sc, some w, some q, some "normal", none⟩).1.scores =
      st.scores ++ [⟨st.scores.length + 1, "Anonymous", sc, w, some q, some "normal"⟩] ∧
    (handle_api_post st ⟨some sc, some w, some q, some "normal", none⟩).1.statsNormal =
      prune (⟨q, sc, w⟩ :: st.statsNormal) ∧
    (⟨some q, sc, w⟩ : StatRow) ∈
      get_stats (handle_api_post st ⟨some sc, some w, some q, some "normal", none⟩).1 "normal" ∧
    (∀ accs : List ℚ, 97 ≤ q →
      (distributionOf (q :: accs)).d97_100 = (distributionOf accs).d97_100 + 1) ∧
    (∀ accs : List ℚ, q < 80 →
      (distributionOf (q :: accs)).below_80 = (distributionOf accs).below_80 + 1) ∧
    (∀ accs : List ℚ,
      (distributionOf (q :: accs)).d97_100 + (distributionOf (q :: accs)).d95_97 +
        (distributionOf (q :: accs)).d90_95 + (distributionOf (q :: accs)).d80_90 +
        (distributionOf (q :: accs)).below_80 = accs.length + 1) := by
  have h : (handle_api_post st ⟨some sc, some w, some q, some "normal", none⟩).1.statsNormal =
      prune (⟨q, sc, w⟩ :: st.statsNormal) := by
    simp [handle_api_post, save_score, save_stats, setBucket, bucketOf, recognizedDifficulties]
  refine ⟨rfl, ?_, h, ?_, ?_, ?_, ?_⟩
  · simp [handle_api_post, save_score, save_stats, setBucket, bucketOf, recognizedDifficulties]
  · have hb : bucketOf (handle_api_post st ⟨some sc, some w, some q, some "normal", none⟩).1
        "normal" = prune (⟨q, sc, w⟩ :: st.statsNormal) := by
      rw [bucketOf, if_neg (by decide), if_pos rfl, h]
    unfold get_stats
    rw [if_pos (by decide), hb]
    refine List.mem_map.mpr ⟨⟨q, sc, w⟩, ?_, rfl⟩
    unfold prune
    rw [show (200 : ℕ) = 199 + 1 from rfl, List.take_succ_cons]
    exact List.mem_cons_self _ _
  · intro accs hq
    simp [distributionOf, List.countP_cons, hq]
  · intro accs hq
    simp [distributionOf, List.countP_cons, hq]
  · intro accs
    rw [distribution_sum_aux (q :: accs), List.length_cons]

/-- Witness for C10: accuracy 150 (far above 100) is accepted and lands in
the `97-100` bucket; accuracy `-5` lands in the `below_80` bucket. -/
theorem accuracy_not_range_validated_witness :
    (handle_api_post emptyState ⟨some 7, some 3, some 150, some "normal", none⟩).2.1 = 200 ∧
    (distributionOf ((150 : ℚ) :: [])).d97_100 = (distributionOf []).d97_100 + 1 ∧
    (distributionOf ((-5 : ℚ) :: [])).below_80 = (distributionOf []).below_80 + 1 :=
  ⟨(accuracy_not_range_validated emptyState 150 7 3).1,
   (accuracy_not_range_validated emptyState 150 7 3).2.2.2.2.1 [] (by norm_num),
   (accuracy_not_range_validated emptyState (-5) 7 3).2.2.2.2.2.1 [] (by norm_num)⟩
